import Mathlib

/-!
Verification of the `ts-app-env` configuration resolver.

Shallow embedding of the repository's configuration-resolution core
(the variant at `release.config.js` lines 160-354, which the claims cite
for `newConfig`, `logOrFailIfErrors`, `log`, `option`, `number` and
`snakeAndUpIfNeeded`), together with the older `src/src/index.ts`
variant of `option` where a claim compares the two.

Modelling decisions:
* JS values flowing through the resolver are modelled by `JsValue`
  (strings, numbers as `Rat`, booleans, `undefined`, and objects with a
  frozen flag standing for `Object.freeze`).
* The logger (`console` / custom `Logger`) is modelled by returning the
  list of emitted log lines instead of performing I/O.
* Exceptions (`throw new ConfigError(msg)`) are modelled with
  `Except String`; the `try`/`catch` in `newConfig` becomes a `match`.
* The environment (`Environment` in the source: a map from names to
  `string | undefined`) is a finite association list; a key explicitly
  bound to `undefined` behaves exactly like an absent key in both
  variants, so only present string bindings are represented.
-/

/-- A JavaScript value as used by the resolver: the result of a parser,
a configured default, or a (possibly nested, possibly frozen) result
object.  `vUndefined` is JS `undefined`.  Numbers are modelled by `Rat`,
which represents every decimal literal the claims exercise exactly. -/
inductive JsValue where
  | vStr (s : String)
  | vNum (q : Rat)
  | vBool (b : Bool)
  | vUndefined
  | vObj (fields : List (String × JsValue)) (frozen : Bool)

/-- Property read `o[k]`: on an object, the stored value or `undefined`
when the key is absent; reads on non-objects are not exercised by any
claim and yield `undefined`. -/
def JsValue.get : JsValue → String → JsValue
  | .vObj fields _, k => ((fields.lookup k).getD .vUndefined)
  | _, _ => .vUndefined

/-- Replace the binding of `k` (JS property write on an ordinary object,
first binding wins as in a JS object's single property slot). -/
def setField : List (String × JsValue) → String → JsValue → List (String × JsValue)
  | [], k, v => [(k, v)]
  | (k', v') :: rest, k, v =>
    if k' = k then (k', v) :: rest else (k', v') :: setField rest k v

/-- Property write `o[k] = v`.  On a frozen object (ECMAScript
`Object.freeze`) every own property is non-writable and the object is
non-extensible, so the write is rejected (a `TypeError` in strict mode,
a silent no-op otherwise): either way the stored values are unchanged,
which is what the model returns. -/
def JsValue.set : JsValue → String → JsValue → JsValue
  | .vObj fields frozen, k, v =>
    if frozen then .vObj fields frozen else .vObj (setField fields k v) frozen
  | o, _, _ => o

/-- Log levels of the `Logger` interface (`debug?/info/warn/error`). -/
inductive LogLevel where
  | debug
  | info
  | warn
  | error
deriving DecidableEq

/-- One emitted log line (a call of a logger method). -/
structure LogLine where
  level : LogLevel
  message : String
deriving DecidableEq

/-- Embedding of `Environment` (source: an index type from name to `string | undefined`):
the snapshot of environment variables, as an association list. -/
def Environment : Type := List (String × String)

/-- Lookup `env[envName]` on the snapshot. -/
def lookupEnv (env : Environment) (name : String) : Option String :=
  List.lookup name env

/-- Embedding of `ConfigOptions` of the release.config.js variant.  The `logger`
field is modelled by collecting emitted lines, so it does not appear. -/
structure ConfigOptions where
  ignoreErrors : Bool := false
  doNotLogErrors : Bool := false
  nodeEnv : Option String := none

/-- Embedding of `ConfigOptionSettings<V>` of the release.config.js variant.
`default := none` is TS `default: undefined` / absent. -/
structure ConfigOptionSettings where
  env : Option String := none
  default : Option JsValue := none
  optional : Bool := false
  notNeededIn : Option (String ⊕ List String) := none

/-- Source `toList(data)`: a single string becomes a one-element list. -/
def toList : String ⊕ List String → List String
  | .inl s => [s]
  | .inr l => l

/-- Test for the regex `^[A-Z]+$`.  `Char.isUpper` coincides with the regex class `[A-Z]` (both are the
ASCII range 65..90). -/
def isAllUpper (s : String) : Bool :=
  !s.data.isEmpty && s.data.all Char.isUpper

/-- JS `toUpperCase`, which on ASCII input is `Char.toUpper` applied
characterwise. -/
def toUpperJs (s : String) : String :=
  String.mk (s.data.map Char.toUpper)

/-- Source `propertyName.replace` of each uppercase letter `l` by `"_" + l`: insert `_`
before every ASCII uppercase letter. -/
def insertUnderscores (s : String) : String :=
  String.mk (s.data.foldr (fun c acc => if c.isUpper then '_' :: c :: acc else c :: acc) [])

/-- Embedding of `snakeAndUpIfNeeded` of the release.config.js variant
(lines 344-350): a name containing `_` or consisting solely of
uppercase letters (`/^[A-Z]+$/`) is used unchanged; otherwise `_` is
inserted before each uppercase letter and the result upper-cased. -/
def snakeAndUpIfNeeded (propertyName : String) : String :=
  if propertyName.data.contains '_' || isAllUpper propertyName then
    propertyName
  else
    toUpperJs (insertUnderscores propertyName)

/-- Embedding of `snakeAndUpIfNeeded` of the src/src/index.ts variant
(lines 142-148): same, but without the all-uppercase test. -/
def snakeAndUpIfNeededV1 (propertyName : String) : String :=
  if propertyName.data.contains '_' then
    propertyName
  else
    toUpperJs (insertUnderscores propertyName)

/-- Derivation `options.env || snakeAndUpIfNeeded(propertyName)`: the JS `||` is a
falsy test, so an explicit env name that is the empty string also falls
back to the derived name. -/
def envNameOf (options : ConfigOptionSettings) (propertyName : String) : String :=
  match options.env with
  | some e => if e = "" then snakeAndUpIfNeeded propertyName else e
  | none => snakeAndUpIfNeeded propertyName

/-- Models JS `parseFloat` on the inputs the resolver sees: skip
leading whitespace, optional sign, then the longest prefix
`digits[.digits]` or `.digits`; trailing characters are ignored; if no
digit is found the result is `NaN`, modelled as `none`.  (`Infinity`
and exponent notation are not modelled; no claim exercises them.) -/
def parseFloatJs (s : String) : Option Rat :=
  let cs := s.data.dropWhile (fun c => c == ' ' || c == '\t' || c == '\n' || c == '\r')
  let signAndRest : Int × List Char :=
    match cs with
    | '-' :: rest => (-1, rest)
    | '+' :: rest => (1, rest)
    | _ => (1, cs)
  let sign := signAndRest.1
  let cs2 := signAndRest.2
  let intPart := cs2.takeWhile Char.isDigit
  let afterInt := cs2.dropWhile Char.isDigit
  let fracPart :=
    match afterInt with
    | '.' :: r => r.takeWhile Char.isDigit
    | _ => []
  if intPart.isEmpty && fracPart.isEmpty then
    none
  else
    let natOfDigits : List Char → Nat :=
      fun ds => ds.foldl (fun a c => a * 10 + (c.toNat - 48)) 0
    let scale : Nat := 10 ^ fracPart.length
    some (mkRat (sign * (natOfDigits intPart * scale + natOfDigits fracPart)) scale)

/-- The parser passed to `option` by `number` (release.config.js lines
276-287): `parseFloat`, throwing `"is not a number"` on `NaN`. -/
def numberParse (s : String) : Except String JsValue :=
  match parseFloatJs s with
  | some v => .ok (.vNum v)
  | none => .error "is not a number"

/-- The parser passed to `option` by `string`: the identity. -/
def stringParse (s : String) : Except String JsValue :=
  .ok (.vStr s)

/-- The parser passed to `option` by `boolean`: only the exact literal
`"true"` yields `true`. -/
def booleanParse (s : String) : Except String JsValue :=
  .ok (.vBool (s == "true"))

/-- Embedding of `getValue` of the `ConfigOption` built by `option` in the
release.config.js variant (lines 304-342): derive the env name, parse a
present (`!== undefined`) value, otherwise fall through
default / optional / `notNeededIn` suppression / `"<env> is not set"`. -/
def getValue (options : ConfigOptionSettings) (parser : String → Except String JsValue)
    (propertyName : String) (env : Environment) (appOptions : ConfigOptions) :
    Except String JsValue :=
  let envName := envNameOf options propertyName
  match lookupEnv env envName with
  | some envValue =>
    match parser envValue with
    | .ok v => .ok v
    | .error msg => .error (envName ++ " " ++ msg)
  | none =>
    match options.default with
    | some d => .ok d
    | none =>
      if options.optional then .ok .vUndefined
      else
        match options.notNeededIn, appOptions.nodeEnv with
        | some nn, some ne =>
          if (toList nn).contains ne then .ok .vUndefined
          else .error (envName ++ " is not set")
        | _, _ => .error (envName ++ " is not set")

/-- Embedding of `ConfigOptionSettings` of the src/src/index.ts variant (no
`notNeededIn`). -/
structure ConfigOptionSettingsV1 where
  env : Option String := none
  default : Option JsValue := none
  optional : Bool := false

/-- JS truthiness of a value, as used by the `if (envValue)` /
`if (options.default)` tests of the src/src/index.ts variant. -/
def jsTruthy : JsValue → Bool
  | .vStr s => s ≠ ""
  | .vNum q => q ≠ 0
  | .vBool b => b
  | .vUndefined => false
  | .vObj _ _ => true

/-- Env-name derivation of the src/src/index.ts variant
(`options.env || snakeAndUpIfNeeded(propertyName)`). -/
def envNameOfV1 (options : ConfigOptionSettingsV1) (propertyName : String) : String :=
  match options.env with
  | some e => if e = "" then snakeAndUpIfNeededV1 propertyName else e
  | none => snakeAndUpIfNeededV1 propertyName

/-- The absent-value fall-through of the src/src/index.ts `getValue`
(lines 124-131): note the truthy `if (options.default)` test, under
which a configured falsy default is skipped. -/
def fallThroughV1 (options : ConfigOptionSettingsV1) (envName : String) :
    Except String JsValue :=
  match options.default with
  | some d =>
    if jsTruthy d then .ok d
    else if options.optional then .ok .vUndefined
    else .error (envName ++ " is not set")
  | none =>
    if options.optional then .ok .vUndefined
    else .error (envName ++ " is not set")

/-- Embedding of `getValue` of the `ConfigOption` built by `option` in the
src/src/index.ts variant (lines 109-140): the presence test is the
truthy `if (envValue)`, so a present empty string takes the same
fall-through as an absent variable. -/
def getValueV1 (options : ConfigOptionSettingsV1) (parser : String → Except String JsValue)
    (propertyName : String) (env : Environment) : Except String JsValue :=
  let envName := envNameOfV1 options propertyName
  let truthyValue : Option String :=
    match lookupEnv env envName with
    | some v => if v = "" then none else some v
    | none => none
  match truthyValue with
  | some envValue =>
    match parser envValue with
    | .ok v => .ok v
    | .error msg => .error (envName ++ " " ++ msg)
  | none => fallThroughV1 options envName

/-!
The schema walk (release.config.js `newConfig`, lines 195-242).

A schema (`spec`) is a keyed collection whose entries the source
dispatches on at runtime: `v instanceof ConfigOption` (an option
descriptor), `typeof v === "object"` (a nested spec, resolved
recursively), and everything else (a literal primitive, which matches
neither branch).  The embedding makes that three-way dispatch a tagged
union.  `SpecList` is the entry list in `Object.keys` order.
-/

mutual
/-- One schema entry value: an option descriptor (`option(settings,
parse)`, as built by `number`/`string`/`boolean`), a nested spec, or a
literal non-object value. -/
inductive SpecEntry where
  | opt (settings : ConfigOptionSettings) (parse : String → Except String JsValue)
  | nested (entries : SpecList)
  | literal (v : JsValue)

/-- The entries of a schema, in `Object.keys` order. -/
inductive SpecList where
  | nil
  | cons (key : String) (entry : SpecEntry) (rest : SpecList)
end

/-- Builder `number(options)` (release.config.js lines 276-287). -/
def number (options : ConfigOptionSettings) : SpecEntry :=
  .opt options numberParse

/-- Builder `string(options)` (release.config.js lines 289-294). -/
def string (options : ConfigOptionSettings) : SpecEntry :=
  .opt options stringParse

/-- Builder `boolean(options)` (release.config.js lines 296-301). -/
def boolean (options : ConfigOptionSettings) : SpecEntry :=
  .opt options booleanParse

/-- Embedding of `log` with its options argument (lines 236-242): emit
nothing when `doNotLogErrors === true`, else one line via `fn`. -/
def log (level : LogLevel) (message : String) (options : ConfigOptions) : List LogLine :=
  if options.doNotLogErrors = true then [] else [⟨level, message⟩]

/-- Source expression `errors.map` of message, then `join(", ")`. -/
def joinComma : List String → String
  | [] => ""
  | [m] => m
  | m :: rest => m ++ ", " ++ joinComma rest

/-- Embedding of `logOrFailIfErrors(options, errors, ignoreErrors)` (lines 221-234):
nothing to do without errors; otherwise join the messages and either
log at `error` level and throw, or log the `Ignoring errors ...` line
at `info` level and continue. -/
def logOrFailIfErrors (options : ConfigOptions) (errors : List String)
    (ignoreErrors : Bool) : Except String Unit × List LogLine :=
  if errors.isEmpty then (.ok (), [])
  else
    let message := joinComma errors
    if !ignoreErrors then
      (.error message, log .error message options)
    else
      (.ok (), log .info ("Ignoring errors while instantiating config: " ++ message) options)

/-- The tail of `newConfig` (lines 217-218): run `logOrFailIfErrors` on
the collected errors with `options.ignoreErrors || false`, then freeze
and return the assembled object. -/
def finishConfig (options : ConfigOptions)
    (r : List (String × JsValue) × List String × List LogLine) :
    Except String JsValue × List LogLine :=
  match logOrFailIfErrors options r.2.1 options.ignoreErrors with
  | (.error m, logs2) => (.error m, r.2.2 ++ logs2)
  | (.ok _, logs2) => (.ok (.vObj r.1 true), r.2.2 ++ logs2)

mutual
/-- The `Object.keys(spec).forEach` walk of `newConfig` (lines
200-216): concatenate each entry's assigned fields, caught error
messages and emitted log lines, in schema order. -/
def resolveEntries : SpecList → Environment → ConfigOptions →
    List (String × JsValue) × List String × List LogLine
  | .nil, _, _ => ([], [], [])
  | .cons k e rest, env, opts =>
    let r1 := resolveEntry k e env opts
    let r2 := resolveEntries rest env opts
    (r1.1 ++ r2.1, r1.2.1 ++ r2.2.1, r1.2.2 ++ r2.2.2)

/-- One iteration of the walk, `try`/`catch` included: a descriptor is
resolved via `getValue` (lines 203-204); a nested spec via the
recursive `newConfig(v, env, options)` (lines 205-208), whose thrown
`ConfigError` the `catch` turns into one entry of the error list; a
literal matches neither branch and is dropped. -/
def resolveEntry (k : String) (e : SpecEntry) (env : Environment) (opts : ConfigOptions) :
    List (String × JsValue) × List String × List LogLine :=
  match e with
  | .opt st p =>
    match getValue st p k env opts with
    | .ok v => ([(k, v)], [], [])
    | .error m => ([], [m], [])
  | .nested s =>
    match finishConfig opts (resolveEntries s env opts) with
    | (.ok obj, logs) => ([(k, obj)], [], logs)
    | (.error m, logs) => ([], [m], logs)
  | .literal _ => ([], [], [])
end

/-- Embedding of `newConfig(spec, env, options)` (lines 195-219): walk the spec,
then log-or-throw and freeze.  The first component is the returned
(frozen) object or the thrown `ConfigError` message; the second is the
list of log lines emitted during the call. -/
def newConfig (spec : SpecList) (env : Environment) (options : ConfigOptions) :
    Except String JsValue × List LogLine :=
  finishConfig options (resolveEntries spec env options)

/-!
Flat (specification-level) descriptions of the walk.

`flatErrors` lists every field-level error message of a depth-first
walk, one clause per failing field, nested specs flattened; the
implementation instead folds a nested spec's clauses into a single
pre-joined message.  The refinement lemmas below relate the two.
-/

mutual
/-- Depth-first list of field-error messages of a schema, one per
failing field, nested specs flattened (no grouping). -/
def flatErrors : SpecList → Environment → ConfigOptions → List String
  | .nil, _, _ => []
  | .cons k e rest, env, opts =>
    entryErrors k e env opts ++ flatErrors rest env opts

/-- Field-error messages contributed by one entry. -/
def entryErrors (k : String) (e : SpecEntry) (env : Environment) (opts : ConfigOptions) :
    List String :=
  match e with
  | .opt st p =>
    match getValue st p k env opts with
    | .ok _ => []
    | .error m => [m]
  | .nested s => flatErrors s env opts
  | .literal _ => []
end

/-- The keys of a schema, in order. -/
def specKeys : SpecList → List String
  | .nil => []
  | .cons k _ rest => k :: specKeys rest

/-- Find the entry bound to a key in a schema (first binding). -/
def findEntry : SpecList → String → Option SpecEntry
  | .nil, _ => none
  | .cons k' e rest, k => if k' = k then some e else findEntry rest k

/-- The spec's wording for the name convention: "convert camelCase to
SCREAMING_SNAKE_CASE by inserting `_` before each uppercase letter and
upper-casing the whole string", written as one characterwise pass.
Used to compare the source's two-stage `replace`-then-`toUpperCase`
against the spec's description. -/
def screamingSnakeCaseSpec (s : String) : String :=
  String.mk (s.data.flatMap fun c =>
    if c.isUpper then ['_', c.toUpper] else [c.toUpper])

/-!
Helper lemmas.
-/

theorem joinComma_cons_of_ne (m : String) (rest : List String) (h : rest ≠ []) :
    joinComma (m :: rest) = m ++ ", " ++ joinComma rest := by
  cases rest with
  | nil => exact absurd rfl h
  | cons b r => rfl

theorem joinComma_append (xs ys : List String) (hx : xs ≠ []) (hy : ys ≠ []) :
    joinComma (xs ++ ys) = joinComma xs ++ ", " ++ joinComma ys := by
  induction xs with
  | nil => exact absurd rfl hx
  | cons a xs ih =>
    cases hxs : xs with
    | nil =>
      subst hxs
      rw [List.cons_append, List.nil_append, joinComma_cons_of_ne a ys hy]
      rfl
    | cons a' xs' =>
      subst hxs
      rw [List.cons_append,
        joinComma_cons_of_ne a ((a' :: xs') ++ ys) (by simp),
        joinComma_cons_of_ne a (a' :: xs') (by simp),
        ih (by simp)]
      simp only [String.append_assoc]

theorem lookup_append_of_none {β : Type} (xs ys : List (String × β)) (k : String)
    (h : List.lookup k xs = none) : List.lookup k (xs ++ ys) = List.lookup k ys := by
  induction xs with
  | nil => rfl
  | cons p rest ih =>
    simp only [List.lookup] at h ⊢
    cases hb : (k == p.1) with
    | true => simp [hb] at h
    | false =>
      simp only [List.cons_append, List.lookup, hb] at h ⊢
      exact ih h

mutual
theorem resolveEntries_errors_flat : ∀ (l : SpecList) (env : Environment) (opts : ConfigOptions),
    opts.ignoreErrors = false →
    (((resolveEntries l env opts).2.1 = [] ↔ flatErrors l env opts = []) ∧
     joinComma (resolveEntries l env opts).2.1 = joinComma (flatErrors l env opts))
  | .nil, env, opts, h => ⟨Iff.rfl, rfl⟩
  | .cons k e rest, env, opts, h => by
    have h1 := resolveEntry_errors_flat k e env opts h
    have h2 := resolveEntries_errors_flat rest env opts h
    constructor
    · simp only [resolveEntries, flatErrors, List.append_eq_nil]
      exact and_congr h1.1 h2.1
    · simp only [resolveEntries, flatErrors]
      rcases Classical.em ((resolveEntry k e env opts).2.1 = []) with he | he
      · have hf : entryErrors k e env opts = [] := h1.1.mp he
        rw [he, hf, List.nil_append, List.nil_append]
        exact h2.2
      · have hf : entryErrors k e env opts ≠ [] := fun hh => he (h1.1.mpr hh)
        rcases Classical.em ((resolveEntries rest env opts).2.1 = []) with hr | hr
        · have hfr : flatErrors rest env opts = [] := h2.1.mp hr
          rw [hr, hfr, List.append_nil, List.append_nil]
          exact h1.2
        · have hfr : flatErrors rest env opts ≠ [] := fun hh => hr (h2.1.mpr hh)
          rw [joinComma_append _ _ he hr, joinComma_append _ _ hf hfr, h1.2, h2.2]

theorem resolveEntry_errors_flat : ∀ (k : String) (e : SpecEntry) (env : Environment) (opts : ConfigOptions),
    opts.ignoreErrors = false →
    (((resolveEntry k e env opts).2.1 = [] ↔ entryErrors k e env opts = []) ∧
     joinComma (resolveEntry k e env opts).2.1 = joinComma (entryErrors k e env opts))
  | k, .opt st p, env, opts, h => by
    simp only [resolveEntry, entryErrors]
    cases getValue st p k env opts with
    | ok v => simp
    | error m => simp
  | k, .literal v, env, opts, h => ⟨Iff.rfl, rfl⟩
  | k, .nested s, env, opts, h => by
    have hs := resolveEntries_errors_flat s env opts h
    simp only [resolveEntry, entryErrors, finishConfig, logOrFailIfErrors, h]
    rcases Classical.em ((resolveEntries s env opts).2.1 = []) with he | he
    · have hf := hs.1.mp he
      simp [he, hf]
    · have hf : flatErrors s env opts ≠ [] := fun hh => he (hs.1.mpr hh)
      have hne : (resolveEntries s env opts).2.1.isEmpty = false := by
        cases hx : (resolveEntries s env opts).2.1 with
        | nil => exact absurd hx he
        | cons a b => rfl
      simp only [hne, Bool.false_eq_true, if_false, Bool.not_false, if_true]
      constructor
      · simp [hf]
      · simp [joinComma, hs.2]
end

theorem finishConfig_ignore (opts : ConfigOptions)
    (r : List (String × JsValue) × List String × List LogLine)
    (h : opts.ignoreErrors = true) :
    finishConfig opts r =
      (.ok (.vObj r.1 true),
        r.2.2 ++ (if r.2.1 = [] then []
          else log .info ("Ignoring errors while instantiating config: " ++ joinComma r.2.1) opts)) := by
  simp only [finishConfig, logOrFailIfErrors, h]
  cases hx : r.2.1 with
  | nil => simp
  | cons a b => simp

theorem newConfig_ignore (l : SpecList) (env : Environment) (opts : ConfigOptions)
    (h : opts.ignoreErrors = true) :
    newConfig l env opts =
      (.ok (.vObj (resolveEntries l env opts).1 true),
        (resolveEntries l env opts).2.2 ++
          (if (resolveEntries l env opts).2.1 = [] then []
           else log .info ("Ignoring errors while instantiating config: " ++
             joinComma (resolveEntries l env opts).2.1) opts)) := by
  simp only [newConfig]
  exact finishConfig_ignore opts _ h

theorem newConfig_fst_error (l : SpecList) (env : Environment) (opts : ConfigOptions)
    (h : opts.ignoreErrors = false) (h2 : flatErrors l env opts ≠ []) :
    (newConfig l env opts).1 = .error (joinComma (flatErrors l env opts)) := by
  have hs := resolveEntries_errors_flat l env opts h
  have he : (resolveEntries l env opts).2.1 ≠ [] := fun hh => h2 (hs.1.mp hh)
  have hne : (resolveEntries l env opts).2.1.isEmpty = false := by
    cases hx : (resolveEntries l env opts).2.1 with
    | nil => exact absurd hx he
    | cons a b => rfl
  simp only [newConfig, finishConfig, logOrFailIfErrors, h, hne, Bool.not_false, if_true,
    Bool.false_eq_true, if_false]
  exact congrArg Except.error hs.2

theorem newConfig_fst_ok (l : SpecList) (env : Environment) (opts : ConfigOptions)
    (h : opts.ignoreErrors = false) (h2 : flatErrors l env opts = []) :
    newConfig l env opts = (.ok (.vObj (resolveEntries l env opts).1 true),
      (resolveEntries l env opts).2.2) := by
  have hs := resolveEntries_errors_flat l env opts h
  have he : (resolveEntries l env opts).2.1 = [] := hs.1.mpr h2
  simp only [newConfig, finishConfig, logOrFailIfErrors, he, List.isEmpty_nil, if_true]
  simp

theorem resolveEntry_fields_shape (k : String) (e : SpecEntry) (env : Environment)
    (opts : ConfigOptions) :
    (resolveEntry k e env opts).1 = [] ∨ ∃ v, (resolveEntry k e env opts).1 = [(k, v)] := by
  cases e with
  | opt st p =>
    simp only [resolveEntry]
    cases getValue st p k env opts with
    | ok v => exact Or.inr ⟨v, rfl⟩
    | error m => exact Or.inl rfl
  | nested s =>
    simp only [resolveEntry]
    cases hx : finishConfig opts (resolveEntries s env opts) with
    | mk r logs =>
      cases r with
      | ok obj => exact Or.inr ⟨obj, rfl⟩
      | error m => exact Or.inl rfl
  | literal v => exact Or.inl rfl

theorem lookup_resolveEntries_none : ∀ (l : SpecList) (env : Environment)
    (opts : ConfigOptions) (k : String), k ∉ specKeys l →
    List.lookup k (resolveEntries l env opts).1 = none
  | .nil, _, _, _, _ => rfl
  | .cons k' e rest, env, opts, k, h => by
    have hk' : k ≠ k' := by
      intro hh
      exact h (by simp [specKeys, hh])
    have hrest : k ∉ specKeys rest := fun hh => h (by simp [specKeys, hh])
    show List.lookup k ((resolveEntry k' e env opts).1 ++ (resolveEntries rest env opts).1) = none
    rcases resolveEntry_fields_shape k' e env opts with hf | ⟨v, hf⟩
    · rw [hf, List.nil_append]
      exact lookup_resolveEntries_none rest env opts k hrest
    · rw [hf]
      have hone : List.lookup k [(k', v)] = none := by
        have hb : (k == k') = false := beq_false_of_ne hk'
        simp [List.lookup, hb]
      rw [lookup_append_of_none _ _ _ hone]
      exact lookup_resolveEntries_none rest env opts k hrest

/-- Under `ignoreErrors`, what a key of the result object reads as, in
terms of the schema entry bound to that key (keys unique). -/
theorem lookup_resolveEntries : ∀ (l : SpecList) (env : Environment) (opts : ConfigOptions)
    (k : String), (specKeys l).Nodup → opts.ignoreErrors = true →
    List.lookup k (resolveEntries l env opts).1 =
      (match findEntry l k with
       | some (.opt st p) =>
         match getValue st p k env opts with
         | .ok v => some v
         | .error _ => none
       | some (.nested s) => some (.vObj (resolveEntries s env opts).1 true)
       | some (.literal _) => none
       | none => none)
  | .nil, _, _, _, _, _ => rfl
  | .cons k' e rest, env, opts, k, hnd, hig => by
    have hnd' : (specKeys rest).Nodup := by
      have : specKeys (SpecList.cons k' e rest) = k' :: specKeys rest := rfl
      rw [this] at hnd
      exact hnd.of_cons
    have hk'notin : k' ∉ specKeys rest := by
      have : specKeys (SpecList.cons k' e rest) = k' :: specKeys rest := rfl
      rw [this] at hnd
      exact (List.nodup_cons.mp hnd).1
    show List.lookup k ((resolveEntry k' e env opts).1 ++ (resolveEntries rest env opts).1) = _
    by_cases hk : k' = k
    · subst hk
      have hfind : findEntry (SpecList.cons k' e rest) k' = some e := by
        simp [findEntry]
      rw [hfind]
      cases e with
      | opt st p =>
        simp only [resolveEntry]
        cases hg : getValue st p k' env opts with
        | ok v =>
          simp [List.lookup]
        | error m =>
          simp only [List.nil_append]
          exact lookup_resolveEntries_none rest env opts k' hk'notin
      | nested s =>
        simp only [resolveEntry, finishConfig_ignore opts _ hig]
        simp [List.lookup]
      | literal v =>
        simp only [resolveEntry, List.nil_append]
        exact lookup_resolveEntries_none rest env opts k' hk'notin
    · have hfind : findEntry (SpecList.cons k' e rest) k = findEntry rest k := by
        simp [findEntry, hk]
      rw [hfind]
      have hb : (k == k') = false := beq_false_of_ne (fun hh => hk hh.symm)
      rcases resolveEntry_fields_shape k' e env opts with hf | ⟨v, hf⟩
      · rw [hf, List.nil_append]
        exact lookup_resolveEntries rest env opts k hnd' hig
      · rw [hf]
        have hone : List.lookup k [(k', v)] = none := by
          simp [List.lookup, hb]
        rw [lookup_append_of_none _ _ _ hone]
        exact lookup_resolveEntries rest env opts k hnd' hig

/-- Every successful `newConfig` result is an `Object.freeze`-d object. -/
theorem newConfig_ok_shape (l : SpecList) (env : Environment) (opts : ConfigOptions)
    (obj : JsValue) (logs : List LogLine) (h : newConfig l env opts = (.ok obj, logs)) :
    obj = .vObj (resolveEntries l env opts).1 true := by
  have : newConfig l env opts = finishConfig opts (resolveEntries l env opts) := rfl
  rw [this] at h
  revert h
  simp only [finishConfig]
  cases hx : logOrFailIfErrors opts (resolveEntries l env opts).2.1 opts.ignoreErrors with
  | mk r logs2 =>
    cases r with
    | ok u => intro h; cases h; rfl
    | error m => intro h; cases h

/-- Lemma: `resolveEntry` on a nested spec is exactly the recursive
`newConfig` call with its thrown error caught. -/
theorem resolveEntry_nested_eq (k : String) (s : SpecList) (env : Environment)
    (opts : ConfigOptions) :
    resolveEntry k (.nested s) env opts =
      (match newConfig s env opts with
       | (.ok obj, logs) => ([(k, obj)], [], logs)
       | (.error m, logs) => ([], [m], logs)) := rfl

/-- The two-stage `replace`-then-`toUpperCase` of the source equals the
spec's one-pass description. -/
theorem toUpperJs_insertUnderscores (s : String) :
    toUpperJs (insertUnderscores s) = screamingSnakeCaseSpec s := by
  simp only [toUpperJs, insertUnderscores, screamingSnakeCaseSpec]
  congr 1
  induction s.data with
  | nil => rfl
  | cons c cs ih =>
    by_cases hc : c.isUpper
    · simp [hc, List.flatMap_cons, ih]
    · simp [hc, List.flatMap_cons, ih]

/-- Concatenation of schemas (used to speak about a schema containing a
given entry somewhere in the walk order). -/
def SpecList.append : SpecList → SpecList → SpecList
  | .nil, l2 => l2
  | .cons k e rest, l2 => .cons k e (SpecList.append rest l2)

theorem flatErrors_append : ∀ (l1 l2 : SpecList) (env : Environment) (opts : ConfigOptions),
    flatErrors (l1.append l2) env opts = flatErrors l1 env opts ++ flatErrors l2 env opts
  | .nil, l2, env, opts => rfl
  | .cons k e rest, l2, env, opts => by
    show entryErrors k e env opts ++ flatErrors (rest.append l2) env opts = _
    rw [flatErrors_append rest l2 env opts]
    show _ = (entryErrors k e env opts ++ flatErrors rest env opts) ++ flatErrors l2 env opts
    rw [List.append_assoc]

theorem logOrFailIfErrors_logs_suppressed (opts : ConfigOptions) (errors : List String)
    (ig : Bool) (h : opts.doNotLogErrors = true) :
    (logOrFailIfErrors opts errors ig).2 = [] := by
  simp only [logOrFailIfErrors, log, h]
  cases errors.isEmpty <;> cases ig <;> simp

mutual
theorem resolveEntries_logs_suppressed : ∀ (l : SpecList) (env : Environment)
    (opts : ConfigOptions), opts.doNotLogErrors = true →
    (resolveEntries l env opts).2.2 = []
  | .nil, _, _, _ => rfl
  | .cons k e rest, env, opts, h => by
    show (resolveEntry k e env opts).2.2 ++ (resolveEntries rest env opts).2.2 = []
    rw [resolveEntry_logs_suppressed k e env opts h,
      resolveEntries_logs_suppressed rest env opts h]
    rfl

theorem resolveEntry_logs_suppressed : ∀ (k : String) (e : SpecEntry) (env : Environment)
    (opts : ConfigOptions), opts.doNotLogErrors = true →
    (resolveEntry k e env opts).2.2 = []
  | k, .opt st p, env, opts, h => by
    simp only [resolveEntry]
    cases getValue st p k env opts <;> rfl
  | k, .literal v, env, opts, h => rfl
  | k, .nested s, env, opts, h => by
    have hsub := resolveEntries_logs_suppressed s env opts h
    have hlog := logOrFailIfErrors_logs_suppressed opts (resolveEntries s env opts).2.1
      opts.ignoreErrors h
    simp only [resolveEntry, finishConfig]
    cases hx : logOrFailIfErrors opts (resolveEntries s env opts).2.1 opts.ignoreErrors with
    | mk r logs2 =>
      have hl2 : logs2 = [] := by
        have := hlog
        rw [hx] at this
        exact this
      cases r with
      | ok u => simp [hsub, hl2]
      | error m => simp [hsub, hl2]
end

theorem newConfig_logs_suppressed (l : SpecList) (env : Environment) (opts : ConfigOptions)
    (h : opts.doNotLogErrors = true) : (newConfig l env opts).2 = [] := by
  show (finishConfig opts (resolveEntries l env opts)).2 = []
  have hsub := resolveEntries_logs_suppressed l env opts h
  have hlog := logOrFailIfErrors_logs_suppressed opts (resolveEntries l env opts).2.1
    opts.ignoreErrors h
  simp only [finishConfig]
  cases hx : logOrFailIfErrors opts (resolveEntries l env opts).2.1 opts.ignoreErrors with
  | mk r logs2 =>
    have hl2 : logs2 = [] := by
      have := hlog
      rw [hx] at this
      exact this
    cases r with
    | ok u => simp [hsub, hl2]
    | error m => simp [hsub, hl2]

/-!
Claim theorems.
-/

/-- C4: lookup-key derivation is a pure function of the field name: an
explicitly configured env name is used verbatim; a field name that
contains an underscore or consists entirely of uppercase letters is
used unchanged; any other field name is converted to
SCREAMING_SNAKE_CASE by inserting `_` before each uppercase letter and
upper-casing the whole string; `someThing` derives `SOME_THING` and
`PORT` derives `PORT` unchanged. -/
theorem c4_lookup_key_derivation :
    (∀ (st : ConfigOptionSettings) (fieldName e : String),
        st.env = some e → e ≠ "" → envNameOf st fieldName = e) ∧
    (∀ s : String, s.data.contains '_' = true → snakeAndUpIfNeeded s = s) ∧
    (∀ s : String, isAllUpper s = true → snakeAndUpIfNeeded s = s) ∧
    (∀ s : String, s.data.contains '_' = false → isAllUpper s = false →
        snakeAndUpIfNeeded s = screamingSnakeCaseSpec s) ∧
    snakeAndUpIfNeeded "someThing" = "SOME_THING" ∧
    snakeAndUpIfNeeded "PORT" = "PORT" := by
  refine ⟨?_, ?_, ?_, ?_, by rfl, by rfl⟩
  · intro st fieldName e he hne
    simp [envNameOf, he, hne]
  · intro s h
    simp only [snakeAndUpIfNeeded, h, Bool.true_or, if_true]
  · intro s h
    simp only [snakeAndUpIfNeeded, h, Bool.or_true, if_true]
  · intro s h1 h2
    simp only [snakeAndUpIfNeeded, h1, h2, Bool.or_self, Bool.false_eq_true, if_false]
    exact toUpperJs_insertUnderscores s

/-- Witness for C4 at concrete inputs. -/
theorem c4_lookup_key_derivation_witness :
    envNameOf { env := some "CUSTOM_ENV_NAME" } "port" = "CUSTOM_ENV_NAME" ∧
    snakeAndUpIfNeeded "SOME_URL" = "SOME_URL" ∧
    snakeAndUpIfNeeded "someThing" = screamingSnakeCaseSpec "someThing" :=
  ⟨c4_lookup_key_derivation.1 { env := some "CUSTOM_ENV_NAME" } "port" "CUSTOM_ENV_NAME"
      rfl (by decide),
   c4_lookup_key_derivation.2.1 "SOME_URL" (by decide),
   c4_lookup_key_derivation.2.2.2.1 "someThing" (by decide) (by decide)⟩

/-- C2: when an option's lookup key is absent from the environment,
`getValue` falls through in exactly this order: a configured default
(falsy defaults such as 0 included) is returned; otherwise an optional
descriptor yields `undefined`; otherwise a configured `notNeededIn`
list containing the options' active `nodeEnv` yields `undefined`;
otherwise the Field Error `"<lookupKey> is not set"` is raised. -/
theorem c2_absent_fallthrough (st : ConfigOptionSettings)
    (p : String → Except String JsValue) (k : String) (env : Environment)
    (opts : ConfigOptions) (habs : lookupEnv env (envNameOf st k) = none) :
    (∀ d, st.default = some d → getValue st p k env opts = .ok d) ∧
    (st.default = none → st.optional = true → getValue st p k env opts = .ok .vUndefined) ∧
    (∀ nn ne, st.default = none → st.optional = false → st.notNeededIn = some nn →
        opts.nodeEnv = some ne → (toList nn).contains ne = true →
        getValue st p k env opts = .ok .vUndefined) ∧
    (st.default = none → st.optional = false →
      (match st.notNeededIn, opts.nodeEnv with
       | some nn, some ne => (toList nn).contains ne
       | _, _ => false) = false →
      getValue st p k env opts = .error (envNameOf st k ++ " is not set")) := by
  refine ⟨?_, ?_, ?_, ?_⟩
  · intro d hd
    simp [getValue, habs, hd]
  · intro hd ho
    simp [getValue, habs, hd, ho]
  · intro nn ne hd ho hn hne hc
    have hc' : ne ∈ toList nn := by simpa using hc
    simp [getValue, habs, hd, ho, hn, hne, hc']
  · intro hd ho hm
    simp only [getValue, habs, hd, ho, if_false, Bool.false_eq_true]
    cases hn : st.notNeededIn with
    | none => cases hne : opts.nodeEnv <;> simp
    | some nn =>
      cases hne : opts.nodeEnv with
      | none => simp
      | some ne =>
        rw [hn, hne] at hm
        have hm' : ne ∉ toList nn := by simpa using hm
        simp [hm']

/-- Witness for C2: a falsy default (0) is still returned, an optional
descriptor yields `undefined`, and a required one raises. -/
theorem c2_absent_fallthrough_witness :
    getValue { env := some "PORT", default := some (.vNum 0) } numberParse "port" [] {} =
      .ok (.vNum 0) ∧
    getValue { env := some "PORT", optional := true } numberParse "port" [] {} =
      .ok .vUndefined ∧
    getValue { env := some "PORT" } numberParse "port" [] {} = .error "PORT is not set" :=
  ⟨(c2_absent_fallthrough _ numberParse "port" [] {} rfl).1 (.vNum 0) rfl,
   (c2_absent_fallthrough _ numberParse "port" [] {} rfl).2.1 rfl rfl,
   (c2_absent_fallthrough _ numberParse "port" [] {} rfl).2.2.2 rfl rfl rfl⟩

/-- C8: number fields parse as floats, so `"100.5"` resolves to the
rational 201/2 = 100.5 (not an integer truncation); a present
non-numeric value raises `"<lookupKey> is not a number"`; and for the
schema `{ port: number({ env: "PORT" }) }` resolution raises
`"PORT is not a number"` when `PORT="abc"` and `"PORT is not set"` when
`PORT` is absent. -/
theorem c8_number_semantics :
    (getValue { env := some "PORT" } numberParse "port" [("PORT", "100.5")] {} =
        .ok (.vNum (mkRat 201 2)) ∧ (mkRat 201 2 : Rat) = 100.5) ∧
    (∀ (st : ConfigOptionSettings) (k : String) (env : Environment) (opts : ConfigOptions)
        (s : String), lookupEnv env (envNameOf st k) = some s → parseFloatJs s = none →
        getValue st numberParse k env opts = .error (envNameOf st k ++ " is not a number")) ∧
    (newConfig (.cons "port" (number { env := some "PORT" }) .nil) [("PORT", "abc")] {}).1 =
      .error "PORT is not a number" ∧
    (newConfig (.cons "port" (number { env := some "PORT" }) .nil) [] {}).1 =
      .error "PORT is not set" := by
  refine ⟨⟨by rfl, by norm_num⟩, ?_, by rfl, by rfl⟩
  intro st k env opts s hlook hnan
  simp only [getValue, hlook, numberParse, hnan]
  rw [String.append_assoc]
  rfl

/-- Witness for C8's general parse-failure clause. -/
theorem c8_number_semantics_witness :
    getValue { env := some "PORT" } numberParse "port" [("PORT", "invalid")] {} =
      .error "PORT is not a number" :=
  c8_number_semantics.2.1 { env := some "PORT" } "port" [("PORT", "invalid")] {} "invalid"
    rfl rfl

/-- C7 counterexample: in the release.config.js variant the presence
test is `envValue !== undefined`, so a present empty string IS passed
to the type-specific parser: with `PORT=""` and a configured default
8080, `getValue` returns the parse failure `"PORT is not a number"`
instead of taking the claimed absent-variable fall-through (which would
return the default 8080). -/
theorem c7_counterexample :
    getValue { env := some "PORT", default := some (.vNum 8080) } numberParse "port"
        [("PORT", "")] {} = .error "PORT is not a number" ∧
    Except.error "PORT is not a number" ≠
      (Except.ok (JsValue.vNum 8080) : Except String JsValue) :=
  ⟨rfl, fun h => Except.noConfusion h⟩

/-- C7 amended: in the release.config.js variant the environment value
is handed to the parser whenever the variable is present (strict
`!== undefined` test), the empty string included; the src/src/index.ts
variant instead uses the truthy test `if (envValue)`, under which a
present empty string takes the same default/optional/error fall-through
as an absent variable. -/
theorem c7_amended :
    (∀ (st : ConfigOptionSettings) (p : String → Except String JsValue) (k : String)
        (env : Environment) (opts : ConfigOptions) (s : String),
        lookupEnv env (envNameOf st k) = some s →
        getValue st p k env opts =
          (match p s with
           | .ok v => .ok v
           | .error m => .error (envNameOf st k ++ " " ++ m))) ∧
    (∀ (st : ConfigOptionSettingsV1) (p : String → Except String JsValue) (k : String)
        (env : Environment),
        lookupEnv env (envNameOfV1 st k) = some "" →
        getValueV1 st p k env = fallThroughV1 st (envNameOfV1 st k)) := by
  constructor
  · intro st p k env opts s hl
    simp only [getValue, hl]
  · intro st p k env hl
    simp [getValueV1, hl]

/-- Witness for C7's amended statement: the modern variant parses the
present empty string (yielding a parse failure despite the default),
the old variant falls through to the default. -/
theorem c7_amended_witness :
    getValue { env := some "PORT", default := some (.vNum 8080) } numberParse "port"
        [("PORT", "")] {} = .error "PORT is not a number" ∧
    getValueV1 { env := some "PORT", default := some (.vNum 8080) } numberParse "port"
        [("PORT", "")] = .ok (.vNum 8080) := by
  constructor
  · have h := c7_amended.1 { env := some "PORT", default := some (.vNum 8080) } numberParse
      "port" [("PORT", "")] {} "" rfl
    exact h
  · have h := c7_amended.2 { env := some "PORT", default := some (.vNum 8080) } numberParse
      "port" [("PORT", "")] rfl
    rw [h]
    show fallThroughV1 _ "PORT" = _
    simp [fallThroughV1, jsTruthy]

/-- C3 counterexample: a literal schema entry (`flag: true`) matches
neither the `instanceof ConfigOption` branch nor the
`typeof v === "object"` branch of the walk, so it is NOT copied into
the output: the result object has no `flag` field and reading it yields
`undefined`, not the literal. -/
theorem c3_counterexample :
    (newConfig (.cons "flag" (.literal (.vBool true)) .nil) [] {}).1 =
      .ok (.vObj [] true) ∧
    JsValue.get (.vObj [] true) "flag" = .vUndefined ∧
    JsValue.vUndefined ≠ JsValue.vBool true :=
  ⟨rfl, rfl, fun h => JsValue.noConfusion h⟩

/-- C3 amended: a schema entry that is neither an option descriptor nor
a nested schema is dropped by the walk: it contributes no output field,
no error and no log line, and a schema consisting of such an entry
resolves to the empty (frozen) object, the key reading as `undefined`. -/
theorem c3_amended (k : String) (v : JsValue) (env : Environment) (opts : ConfigOptions) :
    resolveEntry k (.literal v) env opts = ([], [], []) ∧
    newConfig (.cons k (.literal v) .nil) env opts = (.ok (.vObj [] true), []) ∧
    JsValue.get (.vObj [] true) k = .vUndefined :=
  ⟨rfl, rfl, rfl⟩

/-- C9: every object `newConfig` returns — on full success and on the
`ignoreErrors` path alike — has been passed through `Object.freeze`:
its frozen flag is set, and a subsequent property write leaves the
object, and hence every stored field value, unchanged. -/
theorem c9_frozen (l : SpecList) (env : Environment) (opts : ConfigOptions)
    (obj : JsValue) (logs : List LogLine) (h : newConfig l env opts = (.ok obj, logs)) :
    obj = .vObj (resolveEntries l env opts).1 true ∧
    ∀ (k : String) (v : JsValue), obj.set k v = obj ∧ (obj.set k v).get k = obj.get k := by
  have hs := newConfig_ok_shape l env opts obj logs h
  subst hs
  refine ⟨rfl, ?_⟩
  intro k v
  exact ⟨rfl, rfl⟩

/-- Witness for C9 on a concrete successful resolution. -/
theorem c9_frozen_witness :
    JsValue.set (.vObj [("name", .vStr "app")] true) "name" (.vStr "other") =
      .vObj [("name", .vStr "app")] true := by
  have h := c9_frozen (.cons "name" (string { env := some "NAME" }) .nil)
    [("NAME", "app")] {} (.vObj [("name", .vStr "app")] true) [] rfl
  exact (h.2 "name" (.vStr "other")).1

/-- C1 counterexample: a schema with one missing required field and one
present but non-numeric number field raises a message that also carries
the parse-failure clause, so the message is not the concatenation of
the `"<key> is not set"` clauses alone, contrary to the claim's exact
wording. -/
theorem c1_counterexample :
    (newConfig (.cons "a" (number { env := some "A" })
        (.cons "b" (number { env := some "B" }) .nil)) [("B", "abc")] {}).1 =
      .error "A is not set, B is not a number" ∧
    "A is not set, B is not a number" ≠ "A is not set" :=
  ⟨rfl, by decide⟩

/-- C1 amended: whenever `ignoreErrors` is not set and the depth-first
walk produces at least one Field Error, `newConfig` raises exactly one
`ConfigError` whose message is the comma-joined (`", "`) concatenation
of one clause per failing field in schema-encounter order, depth-first
through nested schemas — `"<key> is not set"` for each missing required
field and `"<key> <parse message>"` for each parse failure; when the
only failures are missing required fields this is exactly one
`"<key> is not set"` clause per missing field. -/
theorem c1_amended (l : SpecList) (env : Environment) (opts : ConfigOptions)
    (h : opts.ignoreErrors = false) (h2 : flatErrors l env opts ≠ []) :
    (newConfig l env opts).1 = .error (joinComma (flatErrors l env opts)) :=
  newConfig_fst_error l env opts h h2

/-- Witness for C1's amended statement: two missing required fields
produce the two comma-joined clauses in schema order. -/
theorem c1_amended_witness :
    (newConfig (.cons "name" (string { env := some "NAME" })
        (.cons "port" (number { env := some "PORT" }) .nil)) [] {}).1 =
      .error "NAME is not set, PORT is not set" :=
  c1_amended (.cons "name" (string { env := some "NAME" })
    (.cons "port" (number { env := some "PORT" }) .nil)) [] {} rfl (by decide)

/-- C5: a nested sub-schema is resolved by the recursive `newConfig`
call with the same environment and options and its resolved (frozen)
object is stored under the parent key; and when `ignoreErrors` is not
set, the nested schema's field errors are flattened — keys unprefixed —
into the flat depth-first error list whose comma-join is the single
top-level aggregate message. -/
theorem c5_nested (k : String) (sub : SpecList) (env : Environment) (opts : ConfigOptions) :
    (∀ obj logs, newConfig sub env opts = (.ok obj, logs) →
        resolveEntry k (.nested sub) env opts = ([(k, obj)], [], logs)) ∧
    (opts.ignoreErrors = false → ∀ pre post : SpecList,
        flatErrors (pre.append (.cons k (.nested sub) post)) env opts =
          flatErrors pre env opts ++ (flatErrors sub env opts ++ flatErrors post env opts)) ∧
    (opts.ignoreErrors = false → ∀ pre post : SpecList,
        flatErrors (pre.append (.cons k (.nested sub) post)) env opts ≠ [] →
        (newConfig (pre.append (.cons k (.nested sub) post)) env opts).1 =
          .error (joinComma (flatErrors (pre.append (.cons k (.nested sub) post)) env opts))) := by
  refine ⟨?_, ?_, ?_⟩
  · intro obj logs hok
    rw [resolveEntry_nested_eq, hok]
  · intro h pre post
    rw [flatErrors_append]
    rfl
  · intro h pre post h2
    exact newConfig_fst_error _ env opts h h2

/-- Witness for C5 on a concrete nested schema: the sub-object is
stored under the parent key, and on failure the nested clauses appear
unprefixed in the one aggregate message. -/
theorem c5_nested_witness :
    resolveEntry "someThirdParty"
        (.nested (.cons "somePort" (number { env := some "SOME_PORT" }) .nil))
        [("SOME_PORT", "100")] {} =
      ([("someThirdParty", .vObj [("somePort", .vNum (mkRat 100 1))] true)], [], []) ∧
    (newConfig (SpecList.append .nil (.cons "someThirdParty"
        (.nested (.cons "somePort" (number { env := some "SOME_PORT" }) .nil)) .nil))
        [] {}).1 = .error "SOME_PORT is not set" := by
  constructor
  · exact (c5_nested "someThirdParty"
      (.cons "somePort" (number { env := some "SOME_PORT" }) .nil) [("SOME_PORT", "100")] {}).1
      (.vObj [("somePort", .vNum (mkRat 100 1))] true) [] rfl
  · exact (c5_nested "someThirdParty"
      (.cons "somePort" (number { env := some "SOME_PORT" }) .nil) [] {}).2.2 rfl .nil .nil
      (by decide)

/-- C6: with `ignoreErrors: true`, `newConfig` does not raise: it
returns the frozen partial object in which every failed field reads as
`undefined` while every successfully resolved field keeps its resolved
value; when there were errors an informational diagnostic
`"Ignoring errors while instantiating config: <aggregate message>"` is
emitted, unless `doNotLogErrors: true` is also passed, in which case
nothing at all is emitted. -/
theorem c6_ignore_errors (l : SpecList) (env : Environment) (opts : ConfigOptions)
    (hig : opts.ignoreErrors = true) :
    (newConfig l env opts).1 = .ok (.vObj (resolveEntries l env opts).1 true) ∧
    (∀ (k : String) (st : ConfigOptionSettings) (p : String → Except String JsValue),
        (specKeys l).Nodup → findEntry l k = some (.opt st p) →
        JsValue.get (.vObj (resolveEntries l env opts).1 true) k =
          (match getValue st p k env opts with
           | .ok v => v
           | .error _ => .vUndefined)) ∧
    ((resolveEntries l env opts).2.1 ≠ [] → opts.doNotLogErrors = false →
        (newConfig l env opts).2 = (resolveEntries l env opts).2.2 ++
          [⟨.info, "Ignoring errors while instantiating config: " ++
            joinComma (resolveEntries l env opts).2.1⟩]) ∧
    (opts.doNotLogErrors = true → (newConfig l env opts).2 = []) := by
  refine ⟨?_, ?_, ?_, ?_⟩
  · rw [newConfig_ignore l env opts hig]
  · intro k st p hnd hfind
    have hl := lookup_resolveEntries l env opts k hnd hig
    rw [hfind] at hl
    show (List.lookup k (resolveEntries l env opts).1).getD .vUndefined = _
    rw [hl]
    cases hg : getValue st p k env opts with
    | ok v => simp [hg]
    | error m => simp [hg]
  · intro hne hdl
    rw [newConfig_ignore l env opts hig]
    show (resolveEntries l env opts).2.2 ++ _ = _
    rw [if_neg hne]
    simp [log, hdl]
  · intro hdl
    exact newConfig_logs_suppressed l env opts hdl

/-- Witness for C6: `name` fails (reads `undefined`), `port` succeeds
(reads 8080), the diagnostic is emitted at `info` level, and with
`doNotLogErrors` nothing is emitted. -/
theorem c6_ignore_errors_witness :
    (newConfig (.cons "name" (string { env := some "NAME" })
        (.cons "port" (number { env := some "PORT" }) .nil))
        [("PORT", "8080")] { ignoreErrors := true }).1 =
      .ok (.vObj [("port", .vNum (mkRat 8080 1))] true) ∧
    JsValue.get (.vObj [("port", .vNum (mkRat 8080 1))] true) "name" = .vUndefined ∧
    JsValue.get (.vObj [("port", .vNum (mkRat 8080 1))] true) "port" =
      .vNum (mkRat 8080 1) ∧
    (newConfig (.cons "name" (string { env := some "NAME" })
        (.cons "port" (number { env := some "PORT" }) .nil))
        [("PORT", "8080")] { ignoreErrors := true }).2 =
      [⟨.info, "Ignoring errors while instantiating config: NAME is not set"⟩] ∧
    (newConfig (.cons "name" (string { env := some "NAME" })
        (.cons "port" (number { env := some "PORT" }) .nil))
        [("PORT", "8080")] { ignoreErrors := true, doNotLogErrors := true }).2 = [] := by
  have h := c6_ignore_errors (.cons "name" (string { env := some "NAME" })
    (.cons "port" (number { env := some "PORT" }) .nil))
    [("PORT", "8080")] { ignoreErrors := true } rfl
  have hd := c6_ignore_errors (.cons "name" (string { env := some "NAME" })
    (.cons "port" (number { env := some "PORT" }) .nil))
    [("PORT", "8080")] { ignoreErrors := true, doNotLogErrors := true } rfl
  refine ⟨h.1, ?_, ?_, ?_, hd.2.2.2 rfl⟩
  · exact h.2.1 "name" { env := some "NAME" } stringParse (by decide) rfl
  · exact h.2.1 "port" { env := some "PORT" } numberParse (by decide) rfl
  · exact h.2.2.1 (by decide) rfl

/-- C10: under `ignoreErrors: true`, a nested level consumes its own
errors: the nested entry stores the nested partial object under the
parent key and contributes NO error to the parent's list (so the nested
clauses cannot appear in the parent's own aggregate diagnostic), while
the nested level itself emits its own
`"Ignoring errors while instantiating config: ..."` line for its own
errors. -/
theorem c10_nested_ignore (k : String) (sub : SpecList) (env : Environment)
    (opts : ConfigOptions) (hig : opts.ignoreErrors = true) :
    resolveEntry k (.nested sub) env opts =
      ([(k, .vObj (resolveEntries sub env opts).1 true)], [],
        (resolveEntries sub env opts).2.2 ++
          (if (resolveEntries sub env opts).2.1 = [] then []
           else log .info ("Ignoring errors while instantiating config: " ++
             joinComma (resolveEntries sub env opts).2.1) opts)) := by
  simp only [resolveEntry, finishConfig_ignore opts _ hig]

/-- Witness for C10: the nested level's failure is logged by the nested
call and the nested partial object is still stored; the parent sees no
error from it. -/
theorem c10_nested_ignore_witness :
    resolveEntry "child" (.nested (.cons "a" (string { env := some "A" }) .nil))
        [] { ignoreErrors := true } =
      ([("child", .vObj [] true)], [],
        [⟨.info, "Ignoring errors while instantiating config: A is not set"⟩]) := by
  have h := c10_nested_ignore "child" (.cons "a" (string { env := some "A" }) .nil)
    [] { ignoreErrors := true } rfl
  exact h
